import Mathlib

/-
Verification development for the FirstCry monitor
(src/monitor_firstcry.py).  The Python source is shallowly embedded:

* HTML is modelled at the level of the parsed soup: a list of anchor
  elements (href attribute together with the already-extracted visible
  text, i.e. the result of get_text(strip=True)) plus a list of elements
  carrying a data-product-id attribute.
* Python string primitives used by the source (urlparse().path,
  str.split, str.strip, str.lower, quote_plus, substring containment)
  are implemented below over character lists so that every definition
  evaluates inside the kernel.
* The sqlite table is a list of rows keyed by product_id; sqlite's
  implicit transaction (all writes commit together at conn.commit(), or
  roll back when the run raises first) is modelled by keeping the staged
  store separate from the committed store.
* Exceptions are modelled with Except; time.sleep calls are recorded as
  a list of the waited durations.
-/

namespace FirstCryMonitor

/-- Python `needle in hay` substring containment test. -/
def strContains (hay needle : String) : Bool :=
  let h := hay.toList
  let n := needle.toList
  (List.range (h.length + 1)).any (fun i => (h.drop i).take n.length == n)

/-- Python `text.split()` (no separator): the maximal whitespace-free
words of the text, accumulated left to right. -/
def wordsAux : List Char → List Char → List (List Char)
  | cur, [] => if cur = [] then [] else [cur.reverse]
  | cur, c :: rest =>
    if c.isWhitespace then
      if cur = [] then wordsAux [] rest else cur.reverse :: wordsAux [] rest
    else wordsAux (c :: cur) rest

/-- Join word lists with single spaces, as `" ".join(...)` does. -/
def joinWords : List (List Char) → List Char
  | [] => []
  | [w] => w
  | w :: ws => w ++ ' ' :: joinWords ws

/-- Python `" ".join(text.split())`: collapse internal whitespace runs to
single spaces and drop leading/trailing whitespace. -/
def collapseWhitespace (s : String) : String :=
  String.mk (joinWords (wordsAux [] s.toList))

/-- Python `s.split(sep)` for a one-character separator (keeps empty
pieces, always returns at least one piece). -/
def splitOnChar (sep : Char) : List Char → List Char → List (List Char)
  | cur, [] => [cur.reverse]
  | cur, c :: rest =>
    if c == sep then cur.reverse :: splitOnChar sep [] rest
    else splitOnChar sep (c :: cur) rest

/-- Python `s.strip()`: remove leading and trailing whitespace. -/
def pyStrip (s : String) : String :=
  String.mk (((s.toList.dropWhile Char.isWhitespace).reverse.dropWhile Char.isWhitespace).reverse)

/-- Python `s.lower()` (ASCII range, which is all the source compares). -/
def pyLower (s : String) : String :=
  String.mk (s.toList.map Char.toLower)

/-- Python `s.startswith(pre)`. -/
def pyStartsWith (s pre : String) : Bool :=
  s.toList.take pre.toList.length == pre.toList

/-- Characters CPython's urlsplit accepts inside a URL scheme. -/
def schemeChar (c : Char) : Bool :=
  c.isAlphanum || c == '+' || c == '-' || c == '.'

/-- CPython urlsplit: remove `scheme:` when the text before the first `:`
is a well-formed scheme (first char alphabetic, all chars scheme chars). -/
def stripScheme (cs : List Char) : List Char :=
  match cs.findIdx? (fun c => c == ':') with
  | none => cs
  | some i =>
    if 0 < i ∧ (cs.headD ' ').isAlpha ∧ (cs.take i).all schemeChar then
      cs.drop (i + 1)
    else cs

/-- CPython urlsplit: when the remainder starts with `//`, drop the netloc,
which extends to the next `/`, `?` or `#`. -/
def stripNetloc (cs : List Char) : List Char :=
  match cs with
  | '/' :: '/' :: rest => rest.dropWhile (fun c => c != '/' && c != '?' && c != '#')
  | _ => cs

/-- CPython urlparse `_splitparams`: drop `;params` from the last path
segment. -/
def stripParams (cs : List Char) : List Char :=
  if cs.contains ';' then
    if cs.contains '/' then
      let afterSlash := (cs.reverse.takeWhile (fun c => c != '/')).reverse
      let beforeSlash := cs.take (cs.length - afterSlash.length)
      if afterSlash.contains ';' then
        beforeSlash ++ afterSlash.takeWhile (fun c => c != ';')
      else cs
    else cs.takeWhile (fun c => c != ';')
  else cs

/-- `urlparse(url).path` of CPython's urllib.parse: remove tab/CR/LF,
then scheme, netloc, fragment, query and params. -/
def urlparsePath (url : String) : String :=
  let cs := url.toList.filter (fun c => c != '\t' && c != '\r' && c != '\n')
  let cs := stripScheme cs
  let cs := stripNetloc cs
  let cs := cs.takeWhile (fun c => c != '#')
  let cs := cs.takeWhile (fun c => c != '?')
  String.mk (stripParams cs)

/-- UTF-8 encoding of a single code point, as byte values. -/
def utf8Bytes (c : Char) : List Nat :=
  let n := c.toNat
  if n < 0x80 then [n]
  else if n < 0x800 then [0xC0 + n / 0x40, 0x80 + n % 0x40]
  else if n < 0x10000 then
    [0xE0 + n / 0x1000, 0x80 + (n / 0x40) % 0x40, 0x80 + n % 0x40]
  else
    [0xF0 + n / 0x40000, 0x80 + (n / 0x1000) % 0x40, 0x80 + (n / 0x40) % 0x40, 0x80 + n % 0x40]

/-- Bytes urllib.parse.quote never encodes: ASCII alphanumerics and
`_.-~`. -/
def alwaysSafeByte (b : Nat) : Bool :=
  (65 ≤ b && b ≤ 90) || (97 ≤ b && b ≤ 122) || (48 ≤ b && b ≤ 57) ||
    b == 95 || b == 46 || b == 45 || b == 126

/-- Uppercase hexadecimal digit, as used by urllib's percent-encoding. -/
def hexDigit (n : Nat) : Char :=
  if n < 10 then Char.ofNat (48 + n) else Char.ofNat (55 + n)

/-- How urllib.parse.quote_plus renders one byte of the UTF-8 encoding:
space becomes `+`, safe bytes stand for themselves, everything else is
percent-encoded with uppercase hex. -/
def quotePlusByte (b : Nat) : List Char :=
  if b == 32 then ['+']
  else if alwaysSafeByte b then [Char.ofNat b]
  else ['%', hexDigit (b / 16), hexDigit (b % 16)]

/-- Python `urllib.parse.quote_plus`. -/
def quote_plus (s : String) : String :=
  String.mk ((((s.toList.map utf8Bytes).flatten).map quotePlusByte).flatten)

/-- An `<a href=...>` element as BeautifulSoup delivers it to the parser:
the raw href attribute and the visible text `a.get_text(strip=True)`. -/
structure Anchor where
  href : String
  text : String
deriving DecidableEq

/-- An element carrying a `data-product-id` attribute, as selected by
`soup.select("[data-product-id]")`: the attribute value, and the
`get_text(strip=True)` of the first sub-element among an `a`, a
`.product-name`, an `h2` or an `h3` (`none` when no such sub-element). -/
structure Tile where
  dataProductId : String
  titleText : Option String
deriving DecidableEq

/-- The parsed document: `BeautifulSoup(html_text, "html.parser")`,
restricted to the two element families the parser queries, each in
document order. -/
structure Soup where
  anchors : List Anchor
  tiles : List Tile
deriving DecidableEq

/-- `parts[-1] if parts else path` over `parts = [p for p in
path.split("/") if p]`: the last non-empty path segment, or the whole
path when there is none. -/
def lastPathSegment (path : String) : String :=
  match ((splitOnChar '/' [] path.toList).map String.mk).filter (fun p => p ≠ "") with
  | [] => path
  | parts => parts.getLastD path

/-- Primary and secondary extraction tiers (lines 106-133 of the source):
every anchor whose stripped href contains the marker substring and whose
visible text is non-empty yields `(last path segment, collapsed text)`. -/
def anchorTier (marker : String) (anchors : List Anchor) : List (String × String) :=
  anchors.filterMap (fun a =>
    let href := pyStrip a.href
    let text := a.text
    if text = "" then none
    else if strContains href marker then
      some (lastPathSegment (urlparsePath href), collapseWhitespace text)
    else none)

/-- Tertiary extraction tier (lines 135-142): elements with a non-empty
`data-product-id` attribute yield `(stripped id, stripped title text)`. -/
def tertiaryTier (tiles : List Tile) : List (String × String) :=
  tiles.filterMap (fun tile =>
    let title := match tile.titleText with
      | some s => s
      | none => ""
    if tile.dataProductId ≠ "" then some (pyStrip tile.dataProductId, pyStrip title) else none)

/-- Final fallback tier (lines 144-154): any anchor with visible text of
at least 4 characters and a non-javascript href; the id is the last
`/`-segment of the url path before any `?`, falling back to the stripped
href itself when that segment is empty. -/
def fallbackTier (anchors : List Anchor) : List (String × String) :=
  anchors.filterMap (fun a =>
    let href := pyStrip a.href
    let text := a.text
    if text = "" ∨ text.toList.length < 4 then none
    else if strContains (pyLower href) "javascript" then none
    else
      let seg := ((splitOnChar '/' [] (urlparsePath href).toList).map String.mk).getLastD ""
      let pid0 := ((splitOnChar '?' [] seg.toList).map String.mk).headD ""
      let pid := if pid0 = "" then href else pid0
      some (pid, text))

/-- The tier cascade of `parse_products_from_html` (lines 106-154): each
tier runs only when every earlier tier produced no record. -/
def rawProducts (soup : Soup) : List (String × String) :=
  let products := anchorTier "/hotwheels/" soup.anchors
  let products := if products = [] then anchorTier "/product/" soup.anchors else products
  let products := if products = [] then tertiaryTier soup.tiles else products
  if products = [] then fallbackTier soup.anchors else products

/-- The dedup dict of lines 156-162: `unique` is an insertion-ordered
association list; a pair is added when its id is non-empty and not yet a
key. -/
def dedupeAux : List (String × String) → List (String × String) → List (String × String)
  | acc, [] => acc
  | acc, p :: rest =>
    if (p.1 != "") && acc.all (fun q => q.1 != p.1) then dedupeAux (acc ++ [p]) rest
    else dedupeAux acc rest

/-- `Deduplicate preserving first seen title` (lines 156-162). -/
def dedupe (products : List (String × String)) : List (String × String) :=
  dedupeAux [] products

/-- `parse_products_from_html` (lines 94-162): the tier cascade followed
by first-occurrence dedup. -/
def parse_products_from_html (soup : Soup) : List (String × String) :=
  dedupe (rawProducts soup)

/-- A row of the sqlite `products` table (`product_id` is the primary
key). -/
structure StoredProduct where
  product_id : String
  title : String
  last_seen : Nat
deriving DecidableEq

/-- The `products` table: a list of rows with pairwise-distinct
`product_id` in any reachable state. -/
abbrev Store := List StoredProduct

/-- `SELECT product_id FROM products WHERE product_id = ?` followed by
`fetchone() is None` (negated): whether the id is present. -/
def containsId (store : Store) (pid : String) : Bool :=
  store.any (fun r => r.product_id == pid)

/-- `UPDATE products SET last_seen = ? WHERE product_id = ?`. -/
def touchRow (store : Store) (pid : String) (now : Nat) : Store :=
  store.map (fun r => if r.product_id = pid then ⟨r.product_id, r.title, now⟩ else r)

/-- `INSERT OR REPLACE INTO products (product_id, title, last_seen)
VALUES (?, ?, ?)`: sqlite deletes any row with the same primary key and
appends the new row. -/
def upsertRow (store : Store) (pid title : String) (now : Nat) : Store :=
  store.filter (fun r => r.product_id != pid) ++ [⟨pid, title, now⟩]

/-- State accumulated by the record-processing loop: the staged table and
the `new_found` list. -/
structure DetectState where
  store : Store
  newFound : List (String × String)
deriving DecidableEq

/-- The record-processing loop of `main` (lines 206-214): for each
record, touch it when its id is already stored, otherwise insert it and
append it to `new_found`. -/
def processRecords (now : Nat) : List (String × String) → Store → List (String × String) → DetectState
  | [], store, acc => ⟨store, acc⟩
  | p :: rest, store, acc =>
    if containsId store p.1 then
      processRecords now rest (touchRow store p.1 now) acc
    else
      processRecords now rest (upsertRow store p.1 p.2 now) (acc ++ [p])

/-- `requests_get_with_retry` (lines 54-68), with the network abstracted
as a map from attempt number to outcome.  `remaining` counts the retries
still allowed after the current attempt (`retries - (attempt - 1)`), so
`remaining = 0` is the final attempt, whose failure is re-raised.  The
second component records the `time.sleep(backoff * attempt)` durations in
order. -/
def retryGo {α : Type} (net : Nat → Except String α) (backoff : Nat) :
    Nat → Nat → Except String α × List Nat
  | attempt, remaining =>
    match net attempt with
    | Except.ok b => (Except.ok b, [])
    | Except.error e =>
      match remaining with
      | 0 => (Except.error e, [])
      | r + 1 =>
        let rec' := retryGo net backoff (attempt + 1) r
        (rec'.1, backoff * attempt :: rec'.2)

/-- `requests_get_with_retry(url, ...)` with its attempt loop
`for attempt in range(1, retries + 2)` started at attempt 1. -/
def requests_get_with_retry {α : Type} (net : Nat → Except String α)
    (retries backoff : Nat) : Except String α × List Nat :=
  retryGo net backoff 1 retries

/-- A fetched response: the body text together with its parse
`BeautifulSoup(text, "html.parser")`, restricted to the queried element
families. -/
structure Html where
  text : String
  soup : Soup
deriving DecidableEq

/-- `fetch_search_html` (lines 88-92): a GET through the retry helper
with its default `retries=2, backoff=2`. -/
def fetch_search_html (net : Nat → Except String Html) : Except String Html :=
  (requests_get_with_retry net 2 2).1

/-- `build_fetch_url` (lines 83-86). -/
def build_fetch_url (searchUrl query : String) : String :=
  if pyStartsWith (pyLower query) "http://" ∨ pyStartsWith (pyLower query) "https://" then query
  else searchUrl ++ quote_plus query

/-- The failure taxonomy of one run: a fetch exception propagated out of
the retry helper, the `RuntimeError` for a suspiciously small body
(line 193), or an exception raised by `send_email`. -/
inductive RunFailure
  | fetchError (msg : String)
  | suspiciousResponse
  | emailError
deriving DecidableEq

/-- The three notification outcomes of lines 220-229. -/
inductive Notification
  | newItems (items : List (String × String))
  | countIncrease (previous current : Nat)
  | noNotify
deriving DecidableEq

/-- The data a run that reaches `conn.commit()` has computed: the staged
table, `new_found`, `prev_count`, `curr_count` and the notification
decision. -/
structure RunSuccess where
  store : Store
  newFound : List (String × String)
  prevCount : Nat
  currCount : Nat
  notif : Notification
deriving DecidableEq

/-- Lines 195-229 of `main` after a successful, non-suspicious fetch:
parse, read `prev_count`, run the record loop with one `now` timestamp,
and decide the notification. -/
def runSuccessOf (html : Html) (store0 : Store) (now : Nat) : RunSuccess :=
  let products := parse_products_from_html html.soup
  let prevCount := store0.length
  let st := processRecords now products store0 []
  let currCount := products.length
  let notif :=
    if st.newFound ≠ [] then Notification.newItems st.newFound
    else if prevCount < currCount then Notification.countIncrease prevCount currCount
    else Notification.noNotify
  ⟨st.store, st.newFound, prevCount, currCount, notif⟩

/-- The body of `main`'s `try` block up to `conn.commit()` (lines
186-216): fetch, reject suspiciously small bodies, then process.  An
error here reaches the `except` handler with no commit having
happened. -/
def runInner (net : Nat → Except String Html) (store0 : Store) (now : Nat) :
    Except RunFailure RunSuccess :=
  match fetch_search_html net with
  | Except.error e => Except.error (RunFailure.fetchError e)
  | Except.ok html =>
    if html.text = "" ∨ html.text.toList.length < 100 then
      Except.error RunFailure.suspiciousResponse
    else Except.ok (runSuccessOf html store0 now)

/-- What one invocation of `main` leaves behind: the committed table, the
notification that was actually sent, the exception the top-level handler
caught (if any), and whether/how the best-effort error email went. -/
structure MainReport where
  committed : Store
  notified : Option Notification
  caught : Option RunFailure
  errorEmailAttempted : Bool
  errorEmailDelivered : Bool
deriving DecidableEq

/-- `main` (lines 184-237).  `sendOk` is whether the notification
`send_email` call completes without raising (skipping because mail is
unconfigured also completes normally); `errOk` the same for the error
email inside the `except` handler, whose own failure is swallowed by the
inner `try`.  On any failure before `conn.commit()` the sqlite
transaction is never committed, so the table keeps its initial
contents. -/
def runMain (net : Nat → Except String Html) (store0 : Store) (now : Nat)
    (sendOk errOk : Bool) : MainReport :=
  match runInner net store0 now with
  | Except.error e =>
    { committed := store0, notified := none, caught := some e,
      errorEmailAttempted := true, errorEmailDelivered := errOk }
  | Except.ok s =>
    match s.notif with
    | Notification.noNotify =>
      { committed := s.store, notified := none, caught := none,
        errorEmailAttempted := false, errorEmailDelivered := false }
    | n =>
      if sendOk then
        { committed := s.store, notified := some n, caught := none,
          errorEmailAttempted := false, errorEmailDelivered := false }
      else
        { committed := s.store, notified := none, caught := some RunFailure.emailError,
          errorEmailAttempted := true, errorEmailDelivered := errOk }

/-- First occurrences of ids not yet `known`, reading left to right: the
specification vocabulary against which both the dedup dict and the
`new_found` loop are characterised. -/
def firstNewOccurrences (known : String → Bool) : List (String × String) → List (String × String)
  | [] => []
  | p :: rest =>
    if known p.1 then firstNewOccurrences known rest
    else p :: firstNewOccurrences (fun q => decide (q = p.1) || known q) rest

/-- First occurrence of every id in the list. -/
def keepFirstOccurrences (l : List (String × String)) : List (String × String) :=
  firstNewOccurrences (fun _ => false) l

/-- Concrete soup with only secondary-tier markers, for the tier-fallback
check. -/
def soupSecondary : Soup :=
  ⟨[⟨"/product/p1", "Prod One"⟩, ⟨"/elsewhere/x", "Some Link"⟩], []⟩

/-- Concrete soup with two primary-tier anchors sharing one derived id
but different titles, for the dedup check. -/
def soupDup : Soup :=
  ⟨[⟨"/hotwheels/42", "First Title"⟩, ⟨"https://w.x/hotwheels/42", "Second Title"⟩], []⟩

/-- A large-enough fetched page whose soup yields the records A, B, C. -/
def html0 : Html :=
  ⟨String.mk (List.replicate 120 'x'),
   ⟨[⟨"/hotwheels/A", "Toy A"⟩, ⟨"/hotwheels/B", "Toy B"⟩, ⟨"/hotwheels/C", "Toy C"⟩], []⟩⟩

/-- A store pre-seeded with ids A and B. -/
def store0ex : Store :=
  [⟨"A", "Toy A", 5⟩, ⟨"B", "Toy B", 5⟩]

/-- A network that always answers `html0` at once. -/
def net0 : Nat → Except String Html :=
  fun _ => Except.ok html0

/-- A network that fails twice and succeeds on the third attempt. -/
def net1 : Nat → Except String String :=
  fun n => if n = 3 then Except.ok "BODY" else Except.error "boom"

/-- A network that is always down. -/
def netFail : Nat → Except String Html :=
  fun _ => Except.error "down"

/-- A suspiciously small response. -/
def htmlSmall : Html :=
  ⟨"tiny", ⟨[], []⟩⟩

/-- A network that always answers the suspiciously small response. -/
def netSmall : Nat → Except String Html :=
  fun _ => Except.ok htmlSmall

example : quote_plus "hot wheels" = "hot+wheels" := by decide
example : quote_plus "a/b&c" = "a%2Fb%26c" := by decide
example : urlparsePath "https://www.x.com/hotwheels/42?n=1#f" = "/hotwheels/42" := by decide
example : strContains "a/product/b" "/product/" = true := by decide
example : collapseWhitespace "a  b\t c" = "a b c" := by decide
example : pyLower "HTTPS://A.b" = "https://a.b" := by decide
example : pyStrip "  x y\t" = "x y" := by decide
example : (splitOnChar '/' [] "/hotwheels/A".toList).map String.mk = ["", "hotwheels", "A"] := by decide

example :
    parse_products_from_html
      ⟨[⟨"https://www.firstcry.com/hotwheels/5/0/113?sort=1", "Hot  Wheels Car"⟩,
        ⟨"/hotwheels/5/0/113", "Other title"⟩,
        ⟨"/product/99", "P"⟩], []⟩
      = [("113", "Hot Wheels Car")] := by decide

example :
    parse_products_from_html
      ⟨[⟨"/product/p1", "Prod One"⟩, ⟨"/somewhere/else", "Long Text"⟩], []⟩
      = [("p1", "Prod One")] := by decide

example :
    parse_products_from_html ⟨[⟨"javascript:void(0)", "Click here"⟩],
      [⟨" id9 ", some "Tile Nine"⟩]⟩ = [("id9", "Tile Nine")] := by decide

example :
    parse_products_from_html ⟨[⟨"/x/y/linked?q=1", "Nice Link"⟩], []⟩
      = [("linked", "Nice Link")] := by decide

/-- Every pair kept by the dedup dict comes from the accumulator or from
the input, and in the latter case its id is non-empty. -/
theorem mem_dedupeAux {l acc : List (String × String)} {p : String × String}
    (h : p ∈ dedupeAux acc l) : p ∈ acc ∨ (p ∈ l ∧ p.1 ≠ "") := by
  induction l generalizing acc with
  | nil =>
    simp only [dedupeAux] at h
    exact Or.inl h
  | cons q rest ih =>
    simp only [dedupeAux] at h
    by_cases hc : ((q.1 != "") && acc.all (fun r => r.1 != q.1)) = true
    · rw [if_pos hc] at h
      rcases ih h with hacc | hl
      · rcases List.mem_append.mp hacc with h1 | h2
        · exact Or.inl h1
        · have hq : p = q := by simpa using h2
          subst hq
          have hne : p.1 ≠ "" := by
            have := (Bool.and_eq_true ..).mp hc |>.1
            simpa using this
          exact Or.inr ⟨List.mem_cons_self _ _, hne⟩
      · exact Or.inr ⟨List.mem_cons_of_mem _ hl.1, hl.2⟩
    · rw [if_neg hc] at h
      rcases ih h with hacc | hl
      · exact Or.inl hacc
      · exact Or.inr ⟨List.mem_cons_of_mem _ hl.1, hl.2⟩

/-- Every pair returned by the extraction comes from the raw tier
output. -/
theorem mem_of_mem_dedupe {l : List (String × String)} {p : String × String}
    (h : p ∈ dedupe l) : p ∈ l := by
  rcases mem_dedupeAux (show p ∈ dedupeAux [] l from h) with hacc | hl
  · simp at hacc
  · exact hl.1

/-- The dedup dict of the source, characterised: it keeps the first
occurrence of every non-empty id that is not already a key of the
accumulator. -/
theorem dedupeAux_eq (l acc : List (String × String)) :
    dedupeAux acc l =
      acc ++ firstNewOccurrences (fun x => acc.any (fun r => r.1 == x))
        (l.filter (fun p => p.1 != "")) := by
  induction l generalizing acc with
  | nil => simp [dedupeAux, firstNewOccurrences]
  | cons q rest ih =>
    by_cases hq : q.1 = ""
    · have h1 : (q.1 != "") = false := by simp [hq]
      simp only [dedupeAux, List.filter_cons, h1, Bool.false_and, if_false]
      exact ih acc
    · have h1 : (q.1 != "") = true := by simp [hq]
      by_cases hk : acc.any (fun r => r.1 == q.1) = true
      · have h2 : acc.all (fun r => r.1 != q.1) = false := by
          rcases List.any_eq_true.mp hk with ⟨r, hr, hrq⟩
          refine (Bool.eq_false_iff).mpr ?_
          intro hall
          have := List.all_eq_true.mp hall r hr
          simp at this hrq
          exact this hrq
        simp only [dedupeAux, List.filter_cons, h1, h2, Bool.and_false, if_false, if_true,
          firstNewOccurrences, hk]
        exact ih acc
      · have h2 : acc.all (fun r => r.1 != q.1) = true := by
          refine List.all_eq_true.mpr ?_
          intro r hr
          by_contra hne
          exact hk (List.any_eq_true.mpr ⟨r, hr, by simpa using hne⟩)
        have hk' : (acc.any (fun r => r.1 == q.1)) = false := Bool.eq_false_iff.mpr hk
        simp only [dedupeAux, List.filter_cons, h1, h2, Bool.and_true, if_true,
          firstNewOccurrences, hk']
        rw [ih (acc ++ [q])]
        have hfun : (fun x => (acc ++ [q]).any (fun r => r.1 == x))
            = (fun x => decide (x = q.1) || acc.any (fun r => r.1 == x)) := by
          funext x
          simp only [List.any_append, List.any_cons, List.any_nil, Bool.or_false]
          by_cases hx : x = q.1
          · simp [hx]
          · have : (q.1 == x) = false := by simp [Ne.symm hx]
            simp [this, hx]
        rw [hfun]
        simp

/-- A pair kept as a first new occurrence comes from the input and its id
was not yet known. -/
theorem mem_firstNewOccurrences {known : String → Bool} {l : List (String × String)}
    {p : String × String} (h : p ∈ firstNewOccurrences known l) :
    p ∈ l ∧ known p.1 = false := by
  induction l generalizing known with
  | nil => simp [firstNewOccurrences] at h
  | cons q rest ih =>
    simp only [firstNewOccurrences] at h
    by_cases hk : known q.1 = true
    · rw [if_pos hk] at h
      rcases ih h with ⟨hm, hkn⟩
      exact ⟨List.mem_cons_of_mem _ hm, hkn⟩
    · rw [if_neg hk] at h
      rcases List.mem_cons.mp h with hq | hrest
      · subst hq
        exact ⟨List.mem_cons_self _ _, Bool.eq_false_iff.mpr hk⟩
      · rcases ih hrest with ⟨hm, hkn⟩
        have : known p.1 = false := by
          rcases Bool.or_eq_false_iff.mp hkn with ⟨_, h2⟩
          exact h2
        exact ⟨List.mem_cons_of_mem _ hm, this⟩

/-- An id appears among the first new occurrences exactly when it was
unknown and appears in the input. -/
theorem fst_mem_firstNewOccurrences (known : String → Bool) (l : List (String × String))
    (x : String) :
    x ∈ (firstNewOccurrences known l).map Prod.fst ↔
      (known x = false ∧ x ∈ l.map Prod.fst) := by
  induction l generalizing known with
  | nil => simp [firstNewOccurrences]
  | cons q rest ih =>
    simp only [firstNewOccurrences]
    by_cases hk : known q.1 = true
    · rw [if_pos hk, ih known]
      constructor
      · rintro ⟨hkn, hm⟩
        refine ⟨hkn, ?_⟩
        simp only [List.map_cons, List.mem_cons]
        exact Or.inr hm
      · rintro ⟨hkn, hm⟩
        refine ⟨hkn, ?_⟩
        simp only [List.map_cons, List.mem_cons] at hm
        rcases hm with hq | hrest
        · rw [hq, hk] at hkn
          exact Bool.noConfusion hkn
        · exact hrest
    · rw [if_neg hk]
      have hkq : known q.1 = false := Bool.eq_false_iff.mpr hk
      by_cases hx : x = q.1
      · subst hx
        constructor
        · intro _
          refine ⟨hkq, ?_⟩
          simp
        · intro _
          simp
      · simp only [List.map_cons, List.mem_cons]
        constructor
        · intro hm
          rcases hm with he | hm
          · exact absurd he hx
          · rcases (ih _).mp hm with ⟨hkn, hmm⟩
            rcases Bool.or_eq_false_iff.mp hkn with ⟨_, h2⟩
            exact ⟨h2, Or.inr hmm⟩
        · rintro ⟨hkn, hm⟩
          rcases hm with he | hm
          · exact absurd he hx
          · refine Or.inr ((ih _).mpr ⟨?_, hm⟩)
            simp [hx, hkn]

/-- The ids of the first new occurrences are pairwise distinct. -/
theorem nodup_firstNewOccurrences (known : String → Bool) (l : List (String × String)) :
    ((firstNewOccurrences known l).map Prod.fst).Nodup := by
  induction l generalizing known with
  | nil => simp [firstNewOccurrences]
  | cons q rest ih =>
    simp only [firstNewOccurrences]
    by_cases hk : known q.1 = true
    · rw [if_pos hk]; exact ih known
    · rw [if_neg hk]
      simp only [List.map_cons, List.nodup_cons]
      refine ⟨?_, ih _⟩
      intro hmem
      have := (fst_mem_firstNewOccurrences _ rest q.1).mp hmem
      simp at this

/-- When the input ids are already pairwise distinct, the first new
occurrences are exactly the records whose id is unknown. -/
theorem firstNewOccurrences_eq_filter {l : List (String × String)} (known : String → Bool)
    (h : (l.map Prod.fst).Nodup) :
    firstNewOccurrences known l = l.filter (fun p => !known p.1) := by
  induction l generalizing known with
  | nil => simp [firstNewOccurrences]
  | cons q rest ih =>
    simp only [List.map_cons, List.nodup_cons] at h
    rcases h with ⟨hq, hrest⟩
    rw [List.filter_cons]
    simp only [firstNewOccurrences]
    by_cases hk : known q.1 = true
    · rw [if_pos hk]
      have hb : (!known q.1) = false := by rw [hk]; rfl
      rw [hb, if_neg (by decide)]
      exact ih known hrest
    · have hkq : known q.1 = false := Bool.eq_false_iff.mpr hk
      rw [if_neg hk]
      have hb : (!known q.1) = true := by rw [hkq]; rfl
      rw [hb, if_pos rfl]
      rw [ih _ hrest]
      congr 1
      refine List.filter_congr ?_
      intro p hp
      have hne : p.1 ≠ q.1 := by
        intro he
        exact hq (he ▸ List.mem_map.mpr ⟨p, hp, rfl⟩)
      simp [hne]

/-- The extraction equals the first occurrences of the non-empty-id raw
records. -/
theorem parse_eq_keepFirst (soup : Soup) :
    parse_products_from_html soup =
      keepFirstOccurrences ((rawProducts soup).filter (fun p => p.1 != "")) := by
  unfold parse_products_from_html dedupe
  rw [dedupeAux_eq]
  rfl

/-- The extracted ids are pairwise distinct. -/
theorem parse_nodup (soup : Soup) :
    ((parse_products_from_html soup).map Prod.fst).Nodup := by
  rw [parse_eq_keepFirst]
  exact nodup_firstNewOccurrences _ _

/-- Every extracted record has a non-empty id. -/
theorem parse_fst_ne_empty {soup : Soup} {p : String × String}
    (h : p ∈ parse_products_from_html soup) : p.1 ≠ "" := by
  rw [parse_eq_keepFirst] at h
  rcases mem_firstNewOccurrences h with ⟨hm, _⟩
  have := (List.mem_filter.mp hm).2
  simpa using this

/-- An id is extracted exactly when it is non-empty and the chosen tier
produced it. -/
theorem parse_fst_mem_iff (soup : Soup) (pid : String) :
    pid ∈ (parse_products_from_html soup).map Prod.fst ↔
      (pid ≠ "" ∧ pid ∈ (rawProducts soup).map Prod.fst) := by
  rw [parse_eq_keepFirst]
  unfold keepFirstOccurrences
  rw [fst_mem_firstNewOccurrences]
  constructor
  · rintro ⟨-, hm⟩
    rcases List.mem_map.mp hm with ⟨p, hp, hpx⟩
    rcases List.mem_filter.mp hp with ⟨hpr, hpne⟩
    subst hpx
    exact ⟨by simpa using hpne, List.mem_map.mpr ⟨p, hpr, rfl⟩⟩
  · rintro ⟨hne, hm⟩
    rcases List.mem_map.mp hm with ⟨p, hp, hpx⟩
    refine ⟨rfl, List.mem_map.mpr ⟨p, List.mem_filter.mpr ⟨hp, ?_⟩, hpx⟩⟩
    subst hpx
    simpa using hne

/-- Touching a row changes no key: the same ids are present before and
after. -/
theorem containsId_touchRow (store : Store) (pid : String) (now : Nat) :
    containsId (touchRow store pid now) = containsId store := by
  funext q
  simp only [containsId, touchRow, List.any_map, Function.comp]
  congr 1
  funext r
  by_cases hr : r.product_id = pid <;> simp [hr]

/-- Filtering out the pid rows changes no other id's presence. -/
theorem any_filter_key (store : Store) (pid q : String) (hq : q ≠ pid) :
    (store.filter (fun r => r.product_id != pid)).any (fun r => r.product_id == q)
      = store.any (fun r => r.product_id == q) := by
  induction store with
  | nil => rfl
  | cons r rest ih =>
    rw [List.filter_cons]
    by_cases hr : r.product_id = pid
    · have hb : (r.product_id != pid) = false := by simp [hr]
      rw [hb, if_neg (by decide)]
      rw [ih]
      have hb2 : (r.product_id == q) = false := by simp [hr, Ne.symm hq]
      simp [hb2]
    · have hb : (r.product_id != pid) = true := by simp [hr]
      rw [hb, if_pos rfl]
      simp only [List.any_cons]
      rw [ih]

/-- After an upsert, exactly the upserted id joins the present ids. -/
theorem containsId_upsertRow (store : Store) (pid title : String) (now : Nat) (q : String) :
    containsId (upsertRow store pid title now) q
      = (decide (q = pid) || containsId store q) := by
  by_cases hq : q = pid
  · subst hq
    simp [containsId, upsertRow, List.any_append]
  · simp only [containsId, upsertRow, List.any_append]
    have h1 : [(⟨pid, title, now⟩ : StoredProduct)].any (fun r => r.product_id == q)
        = false := by
      simp [Ne.symm hq]
    rw [h1, Bool.or_false]
    have h2 : (decide (q = pid)) = false := by simp [hq]
    rw [h2, Bool.false_or]
    exact any_filter_key store pid q hq

/-- A row of the touched table: the pid row got the new timestamp, every
other row is unchanged. -/
theorem mem_touchRow {store : Store} {pid : String} {now : Nat} {r : StoredProduct}
    (h : r ∈ touchRow store pid now) :
    (r.product_id = pid → r.last_seen = now) ∧ (r.product_id ≠ pid → r ∈ store) := by
  rcases List.mem_map.mp h with ⟨x, hx, hfx⟩
  by_cases hxp : x.product_id = pid
  · rw [if_pos hxp] at hfx
    constructor
    · intro _
      rw [← hfx]
    · intro hne
      rw [← hfx] at hne
      exact absurd hxp hne
  · rw [if_neg hxp] at hfx
    subst hfx
    exact ⟨fun he => absurd he hxp, fun _ => hx⟩

/-- A row of the upserted table: the pid row carries the new timestamp,
every other row comes from the old table. -/
theorem mem_upsertRow {store : Store} {pid title : String} {now : Nat} {r : StoredProduct}
    (h : r ∈ upsertRow store pid title now) :
    (r.product_id = pid → r.last_seen = now) ∧ (r.product_id ≠ pid → r ∈ store) := by
  rcases List.mem_append.mp h with hf | hr
  · rcases List.mem_filter.mp hf with ⟨hm, hne⟩
    have hne' : r.product_id ≠ pid := by simpa using hne
    exact ⟨fun he => absurd he hne', fun _ => hm⟩
  · have : r = ⟨pid, title, now⟩ := by simpa using hr
    subst this
    exact ⟨fun _ => rfl, fun hne => absurd rfl hne⟩

/-- The `new_found` list of the record loop: exactly the first
occurrences of records whose id the store did not hold when the loop
reached them. -/
theorem processRecords_newFound (now : Nat) (records : List (String × String)) :
    ∀ (store : Store) (acc : List (String × String)),
      (processRecords now records store acc).newFound =
        acc ++ firstNewOccurrences (containsId store) records := by
  induction records with
  | nil =>
    intro store acc
    simp [processRecords, firstNewOccurrences]
  | cons p rest ih =>
    intro store acc
    simp only [processRecords]
    by_cases hc : containsId store p.1 = true
    · rw [if_pos hc, ih, containsId_touchRow]
      simp only [firstNewOccurrences]
      rw [if_pos hc]
    · rw [if_neg hc, ih]
      have hfun : containsId (upsertRow store p.1 p.2 now)
          = fun q => decide (q = p.1) || containsId store q := by
        funext q
        exact containsId_upsertRow store p.1 p.2 now q
      rw [hfun]
      simp only [firstNewOccurrences]
      rw [if_neg hc, List.append_assoc]
      rfl

/-- Every row of the post-loop table whose id was among the processed
records carries the loop's single timestamp; every other row is an
unchanged row of the initial table. -/
theorem processRecords_store (now : Nat) (records : List (String × String)) :
    ∀ (store : Store) (acc : List (String × String)) (r : StoredProduct),
      r ∈ (processRecords now records store acc).store →
        (r.product_id ∈ records.map Prod.fst → r.last_seen = now)
        ∧ (r.product_id ∉ records.map Prod.fst → r ∈ store) := by
  induction records with
  | nil =>
    intro store acc r hr
    simp only [processRecords] at hr
    exact ⟨by simp, fun _ => hr⟩
  | cons p rest ih =>
    intro store acc r hr
    simp only [processRecords] at hr
    by_cases hc : containsId store p.1 = true
    · rw [if_pos hc] at hr
      rcases ih (touchRow store p.1 now) acc r hr with ⟨h1, h2⟩
      constructor
      · intro hm
        simp only [List.map_cons, List.mem_cons] at hm
        rcases hm with he | hm
        · by_cases hrm : r.product_id ∈ rest.map Prod.fst
          · exact h1 hrm
          · exact (mem_touchRow (h2 hrm)).1 he
        · exact h1 hm
      · intro hm
        simp only [List.map_cons, List.mem_cons] at hm
        push_neg at hm
        exact (mem_touchRow (h2 hm.2)).2 hm.1
    · rw [if_neg hc] at hr
      rcases ih (upsertRow store p.1 p.2 now) (acc ++ [p]) r hr with ⟨h1, h2⟩
      constructor
      · intro hm
        simp only [List.map_cons, List.mem_cons] at hm
        rcases hm with he | hm
        · by_cases hrm : r.product_id ∈ rest.map Prod.fst
          · exact h1 hrm
          · exact (mem_upsertRow (h2 hrm)).1 he
        · exact h1 hm
      · intro hm
        simp only [List.map_cons, List.mem_cons] at hm
        push_neg at hm
        exact (mem_upsertRow (h2 hm.2)).2 hm.1

/-- One step of the retry loop, unfolded. -/
theorem retryGo_eq {α : Type} (net : Nat → Except String α) (backoff attempt remaining : Nat) :
    retryGo net backoff attempt remaining =
      match net attempt with
      | Except.ok b => (Except.ok b, [])
      | Except.error e =>
        match remaining with
        | 0 => (Except.error e, [])
        | r + 1 =>
          ((retryGo net backoff (attempt + 1) r).1,
            backoff * attempt :: (retryGo net backoff (attempt + 1) r).2) := by
  rw [retryGo.eq_def]

/-- The retry loop sleeps at most `remaining` times. -/
theorem retryGo_waits_length {α : Type} (net : Nat → Except String α) (backoff : Nat) :
    ∀ (remaining attempt : Nat),
      (retryGo net backoff attempt remaining).2.length ≤ remaining := by
  intro remaining
  induction remaining with
  | zero =>
    intro attempt
    rw [retryGo_eq]
    cases hn : net attempt <;> simp
  | succ r ih =>
    intro attempt
    rw [retryGo_eq]
    cases hn : net attempt with
    | ok b => simp
    | error e =>
      simp only [List.length_cons]
      exact Nat.succ_le_succ (ih (attempt + 1))

/-- The i-th sleep of the retry loop started at `attempt` lasts
`backoff * (attempt + i)` seconds: the backoff grows linearly with the
attempt number. -/
theorem retryGo_waits_get? {α : Type} (net : Nat → Except String α) (backoff : Nat) :
    ∀ (remaining attempt i : Nat), i < (retryGo net backoff attempt remaining).2.length →
      (retryGo net backoff attempt remaining).2.get? i = some (backoff * (attempt + i)) := by
  intro remaining
  induction remaining with
  | zero =>
    intro attempt i
    rw [retryGo_eq]
    cases hn : net attempt with
    | ok b =>
      intro h
      exact absurd h (by simp)
    | error e =>
      intro h
      exact absurd h (by simp)
  | succ r ih =>
    intro attempt i
    rw [retryGo_eq]
    cases hn : net attempt with
    | ok b =>
      intro h
      exact absurd h (by simp)
    | error e =>
      intro h
      cases i with
      | zero => simp
      | succ i =>
        simp only [List.get?_cons_succ]
        have hlt : i < (retryGo net backoff (attempt + 1) r).2.length := by
          have := h
          simp only [List.length_cons] at this
          omega
        rw [ih (attempt + 1) i hlt]
        have heq : attempt + 1 + i = attempt + (i + 1) := by omega
        rw [heq]

/-- Lines 195-216: the fields of the computed run data, by unfolding. -/
theorem runSuccessOf_prevCount (html : Html) (store0 : Store) (now : Nat) :
    (runSuccessOf html store0 now).prevCount = store0.length := rfl

/-- The current count is the number of extracted records. -/
theorem runSuccessOf_currCount (html : Html) (store0 : Store) (now : Nat) :
    (runSuccessOf html store0 now).currCount
      = (parse_products_from_html html.soup).length := rfl

/-- The staged table is the record loop's output table. -/
theorem runSuccessOf_store (html : Html) (store0 : Store) (now : Nat) :
    (runSuccessOf html store0 now).store
      = (processRecords now (parse_products_from_html html.soup) store0 []).store := rfl

/-- The new-records list is the record loop's `new_found`. -/
theorem runSuccessOf_newFound (html : Html) (store0 : Store) (now : Nat) :
    (runSuccessOf html store0 now).newFound
      = (processRecords now (parse_products_from_html html.soup) store0 []).newFound := rfl

/-- The notification decision of lines 220-229, in terms of the other
fields. -/
theorem runSuccessOf_notif (html : Html) (store0 : Store) (now : Nat) :
    (runSuccessOf html store0 now).notif
      = (if (runSuccessOf html store0 now).newFound ≠ [] then
           Notification.newItems (runSuccessOf html store0 now).newFound
         else if (runSuccessOf html store0 now).prevCount
             < (runSuccessOf html store0 now).currCount then
           Notification.countIncrease (runSuccessOf html store0 now).prevCount
             (runSuccessOf html store0 now).currCount
         else Notification.noNotify) := rfl

/-- Inversion of a successful run: the fetch succeeded, the body passed
the size check, and the result is the computed run data. -/
theorem runInner_ok_inv {net : Nat → Except String Html} {store0 : Store} {now : Nat}
    {s : RunSuccess} (h : runInner net store0 now = Except.ok s) :
    ∃ html, fetch_search_html net = Except.ok html
      ∧ ¬(html.text = "" ∨ html.text.toList.length < 100)
      ∧ s = runSuccessOf html store0 now := by
  unfold runInner at h
  cases hf : fetch_search_html net with
  | error e =>
    rw [hf] at h
    exact absurd h (by simp)
  | ok html =>
    rw [hf] at h
    have h' : (if html.text = "" ∨ html.text.toList.length < 100 then
          (Except.error RunFailure.suspiciousResponse : Except RunFailure RunSuccess)
        else Except.ok (runSuccessOf html store0 now)) = Except.ok s := h
    by_cases hc : html.text = "" ∨ html.text.toList.length < 100
    · rw [if_pos hc] at h'
      exact absurd h' (by simp)
    · rw [if_neg hc] at h'
      exact ⟨html, rfl, hc, (Except.ok.inj h').symm⟩

/-- When the run body raises, `main` commits nothing, logs the caught
exception and attempts the error email. -/
theorem runMain_error {net : Nat → Except String Html} {store0 : Store} {now : Nat}
    {sendOk errOk : Bool} {e : RunFailure}
    (h : runInner net store0 now = Except.error e) :
    runMain net store0 now sendOk errOk =
      { committed := store0, notified := none, caught := some e,
        errorEmailAttempted := true, errorEmailDelivered := errOk } := by
  unfold runMain
  rw [h]

/-- When the run body succeeds, the staged table is committed whatever
the notification path does. -/
theorem runMain_ok_committed {net : Nat → Except String Html} {store0 : Store} {now : Nat}
    {sendOk errOk : Bool} {s : RunSuccess}
    (h : runInner net store0 now = Except.ok s) :
    (runMain net store0 now sendOk errOk).committed = s.store := by
  unfold runMain
  rw [h]
  cases hn : s.notif <;> cases sendOk <;> simp [hn]

/-- C1: extraction attempts the four tiers (primary `/hotwheels/`
anchors, secondary `/product/` anchors, tertiary data-product-id
elements, final generic-anchor fallback) strictly in that order and
returns only the (deduplicated) output of the first tier that yields at
least one record; every returned record belongs to that tier, so no two
tiers ever mix. -/
theorem tier_order_c1 (soup : Soup) :
    (anchorTier "/hotwheels/" soup.anchors ≠ [] →
        parse_products_from_html soup = dedupe (anchorTier "/hotwheels/" soup.anchors)
        ∧ ∀ p ∈ parse_products_from_html soup, p ∈ anchorTier "/hotwheels/" soup.anchors)
  ∧ (anchorTier "/hotwheels/" soup.anchors = [] →
     anchorTier "/product/" soup.anchors ≠ [] →
        parse_products_from_html soup = dedupe (anchorTier "/product/" soup.anchors)
        ∧ ∀ p ∈ parse_products_from_html soup, p ∈ anchorTier "/product/" soup.anchors)
  ∧ (anchorTier "/hotwheels/" soup.anchors = [] →
     anchorTier "/product/" soup.anchors = [] →
     tertiaryTier soup.tiles ≠ [] →
        parse_products_from_html soup = dedupe (tertiaryTier soup.tiles)
        ∧ ∀ p ∈ parse_products_from_html soup, p ∈ tertiaryTier soup.tiles)
  ∧ (anchorTier "/hotwheels/" soup.anchors = [] →
     anchorTier "/product/" soup.anchors = [] →
     tertiaryTier soup.tiles = [] →
        parse_products_from_html soup = dedupe (fallbackTier soup.anchors)
        ∧ ∀ p ∈ parse_products_from_html soup, p ∈ fallbackTier soup.anchors) := by
  refine ⟨?_, ?_, ?_, ?_⟩
  · intro h1
    have hraw : rawProducts soup = anchorTier "/hotwheels/" soup.anchors := by
      simp [rawProducts, h1]
    have hp : parse_products_from_html soup = dedupe (anchorTier "/hotwheels/" soup.anchors) := by
      unfold parse_products_from_html
      rw [hraw]
    exact ⟨hp, fun p hp' => mem_of_mem_dedupe (hp ▸ hp')⟩
  · intro h1 h2
    have hraw : rawProducts soup = anchorTier "/product/" soup.anchors := by
      simp [rawProducts, h1, h2]
    have hp : parse_products_from_html soup = dedupe (anchorTier "/product/" soup.anchors) := by
      unfold parse_products_from_html
      rw [hraw]
    exact ⟨hp, fun p hp' => mem_of_mem_dedupe (hp ▸ hp')⟩
  · intro h1 h2 h3
    have hraw : rawProducts soup = tertiaryTier soup.tiles := by
      simp [rawProducts, h1, h2, h3]
    have hp : parse_products_from_html soup = dedupe (tertiaryTier soup.tiles) := by
      unfold parse_products_from_html
      rw [hraw]
    exact ⟨hp, fun p hp' => mem_of_mem_dedupe (hp ▸ hp')⟩
  · intro h1 h2 h3
    have hraw : rawProducts soup = fallbackTier soup.anchors := by
      simp [rawProducts, h1, h2, h3]
    have hp : parse_products_from_html soup = dedupe (fallbackTier soup.anchors) := by
      unfold parse_products_from_html
      rw [hraw]
    exact ⟨hp, fun p hp' => mem_of_mem_dedupe (hp ▸ hp')⟩

/-- C1 witness: a soup with only secondary-tier markers: the primary
tier is empty, the whole result is the deduplicated secondary tier, and
it contains exactly the secondary-tier record. -/
theorem tier_order_c1_witness :
    anchorTier "/hotwheels/" soupSecondary.anchors = []
  ∧ anchorTier "/product/" soupSecondary.anchors ≠ []
  ∧ parse_products_from_html soupSecondary
      = dedupe (anchorTier "/product/" soupSecondary.anchors)
  ∧ parse_products_from_html soupSecondary = [("p1", "Prod One")] := by
  have h := (tier_order_c1 soupSecondary).2.1 (by decide) (by decide)
  exact ⟨by decide, by decide, h.1, by decide⟩

/-- C3: the extraction result has pairwise-distinct non-empty ids,
records appear in order of first occurrence with the first-seen title
(equality with `keepFirstOccurrences` of the non-empty-id raw records),
and an id is returned exactly when the chosen tier derived it
non-empty. -/
theorem extraction_dedup_c3 (soup : Soup) :
    ((parse_products_from_html soup).map Prod.fst).Nodup
  ∧ (∀ p ∈ parse_products_from_html soup, p.1 ≠ "")
  ∧ parse_products_from_html soup
      = keepFirstOccurrences ((rawProducts soup).filter (fun p => p.1 != ""))
  ∧ (∀ pid, pid ∈ (parse_products_from_html soup).map Prod.fst ↔
        (pid ≠ "" ∧ pid ∈ (rawProducts soup).map Prod.fst)) := by
  exact ⟨parse_nodup soup, fun p hp => parse_fst_ne_empty hp,
    parse_eq_keepFirst soup, fun pid => parse_fst_mem_iff soup pid⟩

/-- C3 witness: two primary-tier anchors sharing the derived id 42 with
different titles yield exactly one record, titled with the first
anchor's text, and the result ids are distinct. -/
theorem extraction_dedup_c3_witness :
    parse_products_from_html soupDup = [("42", "First Title")]
  ∧ ((parse_products_from_html soupDup).map Prod.fst).Nodup := by
  exact ⟨by decide, (extraction_dedup_c3 soupDup).1⟩

/-- C2: change detection processes the extraction result in order; the
new records are exactly those whose id the pre-run store lacks;
`prev_count` is the store's row count read before any upsert;
`curr_count` is the length of the extraction result; and the staged
table is the record loop's output. -/
theorem change_detection_c2 (net : Nat → Except String Html) (html : Html)
    (store0 : Store) (now : Nat) (s : RunSuccess)
    (hf : fetch_search_html net = Except.ok html)
    (hr : runInner net store0 now = Except.ok s) :
    s.newFound = (parse_products_from_html html.soup).filter
      (fun p => !containsId store0 p.1)
  ∧ s.prevCount = store0.length
  ∧ s.currCount = (parse_products_from_html html.soup).length
  ∧ s.store = (processRecords now (parse_products_from_html html.soup) store0 []).store
  ∧ s.newFound
      = (processRecords now (parse_products_from_html html.soup) store0 []).newFound := by
  rcases runInner_ok_inv hr with ⟨html', hf', hc', hs⟩
  rw [hf] at hf'
  have hhtml : html = html' := Except.ok.inj hf'
  subst hhtml
  subst hs
  refine ⟨?_, rfl, rfl, rfl, rfl⟩
  rw [runSuccessOf_newFound, processRecords_newFound]
  rw [firstNewOccurrences_eq_filter (containsId store0) (parse_nodup html.soup)]
  rfl

set_option maxRecDepth 8192 in
/-- C2 witness: with the store pre-seeded with ids A and B and the
extraction result [A, B, C], the run computes `new_records = [C]`,
`previous_count = 2`, `current_count = 3`, persists C with the run
timestamp and merely re-stamps A and B. -/
theorem change_detection_c2_witness :
    (runSuccessOf html0 store0ex 7).newFound = [("C", "Toy C")]
  ∧ (runSuccessOf html0 store0ex 7).prevCount = 2
  ∧ (runSuccessOf html0 store0ex 7).currCount = 3
  ∧ (runSuccessOf html0 store0ex 7).store
      = [⟨"A", "Toy A", 7⟩, ⟨"B", "Toy B", 7⟩, ⟨"C", "Toy C", 7⟩]
  ∧ (runSuccessOf html0 store0ex 7).newFound
      = (parse_products_from_html html0.soup).filter
          (fun p => !containsId store0ex p.1) := by
  have h := change_detection_c2 net0 html0 store0ex 7 (runSuccessOf html0 store0ex 7) rfl rfl
  exact ⟨by decide, by decide, by decide, by decide, h.1⟩

/-- C4: exactly one of the three notification outcomes occurs, evaluated
in order: a new-items notification when `new_found` is non-empty, else a
count-increase notification when the current count exceeds the previous
one, else none; and with a working mailer the decided notification is
the one sent. -/
theorem notification_policy_c4 (net : Nat → Except String Html) (store0 : Store)
    (now : Nat) (s : RunSuccess)
    (hr : runInner net store0 now = Except.ok s) :
    (s.newFound ≠ [] → s.notif = Notification.newItems s.newFound)
  ∧ (s.newFound = [] → s.prevCount < s.currCount →
        s.notif = Notification.countIncrease s.prevCount s.currCount)
  ∧ (s.newFound = [] → ¬ s.prevCount < s.currCount → s.notif = Notification.noNotify)
  ∧ (∀ errOk, s.notif ≠ Notification.noNotify →
        (runMain net store0 now true errOk).notified = some s.notif)
  ∧ (∀ errOk, s.notif = Notification.noNotify →
        (runMain net store0 now true errOk).notified = none) := by
  rcases runInner_ok_inv hr with ⟨html, -, -, hs⟩
  refine ⟨?_, ?_, ?_, ?_, ?_⟩
  · intro hne
    rw [hs, runSuccessOf_notif, if_pos (by rw [← hs]; exact hne)]
  · intro he hlt
    rw [hs, runSuccessOf_notif,
      if_neg (by rw [← hs, he]; simp), if_pos (by rw [← hs]; exact hlt)]
  · intro he hge
    rw [hs, runSuccessOf_notif,
      if_neg (by rw [← hs, he]; simp), if_neg (by rw [← hs]; exact hge)]
  · intro errOk hne
    unfold runMain
    rw [hr]
    cases hn : s.notif with
    | noNotify => exact absurd hn hne
    | newItems items => simp [hn]
    | countIncrease a b => simp [hn]
  · intro errOk hn
    unfold runMain
    rw [hr]
    simp [hn]

set_option maxRecDepth 8192 in
/-- C4 witness: in the A,B→A,B,C run the new-records branch fires and
its notification enumerates the new item. -/
theorem notification_policy_c4_witness :
    (runSuccessOf html0 store0ex 7).newFound ≠ []
  ∧ (runSuccessOf html0 store0ex 7).notif = Notification.newItems [("C", "Toy C")]
  ∧ (runMain net0 store0ex 7 true true).notified
      = some (Notification.newItems [("C", "Toy C")]) := by
  have h := notification_policy_c4 net0 store0ex 7 (runSuccessOf html0 store0ex 7) rfl
  have h1 := h.1 (by decide)
  have h4 := h.2.2.2.1 true (by rw [h1]; decide)
  refine ⟨by decide, h1.trans (by decide), ?_⟩
  rw [h4, h1]
  decide

/-- C5: with the default retry limit 2, the fetch performs at most
retries + 1 = 3 attempts, each wait between failed attempts lasts
`backoff * attempt_number`, and a fetch failing twice then succeeding on
the third attempt returns the successful body after exactly the two
waits `backoff * 1` and `backoff * 2`. -/
theorem fetch_retry_c5 (net : Nat → Except String String) (backoff : Nat)
    (e1 e2 body : String)
    (h1 : net 1 = Except.error e1) (h2 : net 2 = Except.error e2)
    (h3 : net 3 = Except.ok body) :
    (requests_get_with_retry net 2 backoff).1 = Except.ok body
  ∧ (requests_get_with_retry net 2 backoff).2 = [backoff * 1, backoff * 2]
  ∧ (∀ m : Nat → Except String String,
        (requests_get_with_retry m 2 backoff).2.length + 1 ≤ 2 + 1)
  ∧ (∀ m : Nat → Except String String, ∀ i : Nat,
        ∀ h : i < (requests_get_with_retry m 2 backoff).2.length,
        (requests_get_with_retry m 2 backoff).2.get ⟨i, h⟩ = backoff * (1 + i)) := by
  have e1' : retryGo net backoff 3 0 = (Except.ok body, []) := by
    rw [retryGo_eq, h3]
  have e2' : retryGo net backoff 2 1 = (Except.ok body, [backoff * 2]) := by
    rw [retryGo_eq, h2]
    show ((retryGo net backoff 3 0).1, backoff * 2 :: (retryGo net backoff 3 0).2)
        = (Except.ok body, [backoff * 2])
    rw [e1']
  have hrun : requests_get_with_retry net 2 backoff
      = (Except.ok body, [backoff * 1, backoff * 2]) := by
    unfold requests_get_with_retry
    rw [retryGo_eq, h1]
    show ((retryGo net backoff 2 1).1, backoff * 1 :: (retryGo net backoff 2 1).2)
        = (Except.ok body, [backoff * 1, backoff * 2])
    rw [e2']
  refine ⟨by rw [hrun], by rw [hrun], ?_, ?_⟩
  · intro m
    exact Nat.succ_le_succ (retryGo_waits_length m backoff 2 1)
  · intro m i h
    have hq : (requests_get_with_retry m 2 backoff).2.get? i = some (backoff * (1 + i)) :=
      retryGo_waits_get? m backoff 2 1 i h
    have hg : (requests_get_with_retry m 2 backoff).2.get? i
        = some ((requests_get_with_retry m 2 backoff).2.get ⟨i, h⟩) :=
      List.get?_eq_get h
    rw [hg] at hq
    exact Option.some.inj hq

/-- C5 witness: the concrete fail-fail-succeed network with backoff 2
returns the body and waits 2 then 4 seconds. -/
theorem fetch_retry_c5_witness :
    (requests_get_with_retry net1 2 2).1 = Except.ok "BODY"
  ∧ (requests_get_with_retry net1 2 2).2 = [2, 4] := by
  have h := fetch_retry_c5 net1 2 "boom" "boom" "BODY" rfl rfl rfl
  exact ⟨h.1, h.2.1.trans (by decide)⟩

/-- C6: the run's store writes commit atomically at the end of the run:
a failure before the commit point leaves the committed table exactly as
it started, and a run that reaches the commit point commits the whole
record-loop output at once. -/
theorem atomic_commit_c6 (net : Nat → Except String Html) (store0 : Store) (now : Nat)
    (sendOk errOk : Bool) :
    (∀ e, runInner net store0 now = Except.error e →
        (runMain net store0 now sendOk errOk).committed = store0)
  ∧ (∀ s, runInner net store0 now = Except.ok s →
        (runMain net store0 now sendOk errOk).committed = s.store)
  ∧ (∀ s html, fetch_search_html net = Except.ok html →
        runInner net store0 now = Except.ok s →
        s.store = (processRecords now (parse_products_from_html html.soup) store0 []).store) := by
  refine ⟨?_, ?_, ?_⟩
  · intro e he
    rw [runMain_error he]
  · intro s hs
    exact runMain_ok_committed hs
  · intro s html hf hs
    rcases runInner_ok_inv hs with ⟨html', hf', -, hseq⟩
    rw [hf] at hf'
    have : html = html' := Except.ok.inj hf'
    subst this
    rw [hseq, runSuccessOf_store]

set_option maxRecDepth 8192 in
/-- C6 witness: a dead network commits nothing, while the successful
A,B→A,B,C run commits all three rows together. -/
theorem atomic_commit_c6_witness :
    (runMain netFail store0ex 7 true true).committed = store0ex
  ∧ (runMain net0 store0ex 7 true true).committed
      = [⟨"A", "Toy A", 7⟩, ⟨"B", "Toy B", 7⟩, ⟨"C", "Toy C", 7⟩] := by
  have hA := (atomic_commit_c6 netFail store0ex 7 true true).1
    (RunFailure.fetchError "down") rfl
  have hB := (atomic_commit_c6 net0 store0ex 7 true true).2.1
    (runSuccessOf html0 store0ex 7) rfl
  exact ⟨hA, hB.trans (by decide)⟩

/-- C7: a fetched body shorter than 100 characters makes the run fail
with the suspicious-response error — an error distinct from every fetch
error — and neither a store update nor a notification happens. -/
theorem suspicious_response_c7 (net : Nat → Except String Html) (store0 : Store)
    (now : Nat) (sendOk errOk : Bool) (html : Html)
    (hf : fetch_search_html net = Except.ok html)
    (hs : html.text.toList.length < 100) :
    runInner net store0 now = Except.error RunFailure.suspiciousResponse
  ∧ (runMain net store0 now sendOk errOk).committed = store0
  ∧ (runMain net store0 now sendOk errOk).notified = none
  ∧ (runMain net store0 now sendOk errOk).caught = some RunFailure.suspiciousResponse
  ∧ (∀ msg, RunFailure.suspiciousResponse ≠ RunFailure.fetchError msg) := by
  have hinner : runInner net store0 now = Except.error RunFailure.suspiciousResponse := by
    unfold runInner
    rw [hf]
    show (if html.text = "" ∨ html.text.toList.length < 100 then
        (Except.error RunFailure.suspiciousResponse : Except RunFailure RunSuccess)
      else Except.ok (runSuccessOf html store0 now))
        = Except.error RunFailure.suspiciousResponse
    rw [if_pos (Or.inr hs)]
  have hm := @runMain_error net store0 now sendOk errOk RunFailure.suspiciousResponse hinner
  refine ⟨hinner, ?_, ?_, ?_, ?_⟩
  · rw [hm]
  · rw [hm]
  · rw [hm]
  · intro msg
    exact fun hcontr => RunFailure.noConfusion hcontr

set_option maxRecDepth 8192 in
/-- C7 witness: the 4-character body makes the concrete run fail with
the suspicious-response error and commit nothing. -/
theorem suspicious_response_c7_witness :
    runInner netSmall store0ex 7 = Except.error RunFailure.suspiciousResponse
  ∧ (runMain netSmall store0ex 7 true true).committed = store0ex
  ∧ (runMain netSmall store0ex 7 true true).notified = none := by
  have h := suspicious_response_c7 netSmall store0ex 7 true true htmlSmall rfl (by decide)
  exact ⟨h.1, h.2.1, h.2.2.1⟩

/-- C8: a query already starting (case-insensitively) with `http://` or
`https://` is fetched verbatim; any other query is percent-encoded and
appended to the configured search-endpoint prefix. -/
theorem build_url_c8 (searchUrl query : String) :
    ((pyStartsWith (pyLower query) "http://" ∨ pyStartsWith (pyLower query) "https://") →
        build_fetch_url searchUrl query = query)
  ∧ (¬ (pyStartsWith (pyLower query) "http://" ∨ pyStartsWith (pyLower query) "https://") →
        build_fetch_url searchUrl query = searchUrl ++ quote_plus query) := by
  constructor
  · intro h
    unfold build_fetch_url
    rw [if_pos h]
  · intro h
    unfold build_fetch_url
    rw [if_neg h]

/-- C8 witness: a plain query is percent-encoded onto the prefix, and an
absolute URL (here with uppercase scheme) is used unchanged. -/
theorem build_url_c8_witness :
    build_fetch_url "https://www.firstcry.com/search?query=" "hot wheels"
      = "https://www.firstcry.com/search?query=hot+wheels"
  ∧ build_fetch_url "https://www.firstcry.com/search?query=" "HTTPS://example.com/a b"
      = "HTTPS://example.com/a b" := by
  have h1 := (build_url_c8 "https://www.firstcry.com/search?query=" "hot wheels").2 (by decide)
  have h2 := (build_url_c8 "https://www.firstcry.com/search?query="
    "HTTPS://example.com/a b").1 (by decide)
  exact ⟨h1.trans (by decide), h2⟩

/-- C9: the top-level handler catches every failure of the run, records
it, and attempts the best-effort error email exactly when something was
caught; the outcome of that error email never changes what the run
leaves behind, and the run always produces a report rather than
propagating. -/
theorem error_handling_c9 (net : Nat → Except String Html) (store0 : Store) (now : Nat)
    (sendOk errOk errOk2 : Bool) :
    (runMain net store0 now sendOk errOk).committed
      = (runMain net store0 now sendOk errOk2).committed
  ∧ (runMain net store0 now sendOk errOk).notified
      = (runMain net store0 now sendOk errOk2).notified
  ∧ (runMain net store0 now sendOk errOk).caught
      = (runMain net store0 now sendOk errOk2).caught
  ∧ (runMain net store0 now sendOk errOk).errorEmailAttempted
      = (runMain net store0 now sendOk errOk2).errorEmailAttempted
  ∧ ((runMain net store0 now sendOk errOk).errorEmailAttempted
      = ((runMain net store0 now sendOk errOk).caught).isSome)
  ∧ (∀ e, runInner net store0 now = Except.error e →
        (runMain net store0 now sendOk errOk).caught = some e
        ∧ (runMain net store0 now sendOk errOk).errorEmailAttempted = true) := by
  cases hr : runInner net store0 now with
  | error e =>
    rw [runMain_error hr, @runMain_error net store0 now sendOk errOk2 e hr]
    refine ⟨rfl, rfl, rfl, rfl, rfl, ?_⟩
    intro e' he'
    have heq : e = e' := Except.error.inj he'
    subst heq
    exact ⟨rfl, rfl⟩
  | ok s =>
    have hred : ∀ eo : Bool, runMain net store0 now sendOk eo =
        (match s.notif with
         | Notification.noNotify =>
           { committed := s.store, notified := none, caught := none,
             errorEmailAttempted := false, errorEmailDelivered := false }
         | n =>
           if sendOk then
             { committed := s.store, notified := some n, caught := none,
               errorEmailAttempted := false, errorEmailDelivered := false }
           else
             { committed := s.store, notified := none,
               caught := some RunFailure.emailError,
               errorEmailAttempted := true, errorEmailDelivered := eo }) := by
      intro eo
      unfold runMain
      rw [hr]
    rw [hred errOk, hred errOk2]
    refine ⟨?_, ?_, ?_, ?_, ?_, ?_⟩
    · cases hn : s.notif <;> cases sendOk <;> simp
    · cases hn : s.notif <;> cases sendOk <;> simp
    · cases hn : s.notif <;> cases sendOk <;> simp
    · cases hn : s.notif <;> cases sendOk <;> simp
    · cases hn : s.notif <;> cases sendOk <;> simp
    · intro e he
      exact absurd he (by simp)

set_option maxRecDepth 8192 in
/-- C9 witness: the dead-network run is caught as a fetch error, the
error email is attempted, and the committed table does not depend on
whether that email succeeds. -/
theorem error_handling_c9_witness :
    (runMain netFail store0ex 7 true true).caught
      = some (RunFailure.fetchError "down")
  ∧ (runMain netFail store0ex 7 true true).errorEmailAttempted = true
  ∧ (runMain netFail store0ex 7 true false).committed
      = (runMain netFail store0ex 7 true true).committed := by
  have h := error_handling_c9 netFail store0ex 7 true false true
  have h6 := (error_handling_c9 netFail store0ex 7 true true true).2.2.2.2.2
    (RunFailure.fetchError "down") rfl
  exact ⟨h6.1, h6.2, h.1⟩

/-- C10: the current time is read once per run, so every store row whose
id was processed this run — newly inserted or merely touched — carries
one identical `last_seen` value, and every other row is an unchanged row
of the initial table. -/
theorem single_timestamp_c10 (net : Nat → Except String Html) (store0 : Store)
    (now : Nat) (s : RunSuccess) (html : Html)
    (hf : fetch_search_html net = Except.ok html)
    (hr : runInner net store0 now = Except.ok s) :
    (∀ r ∈ s.store,
        r.product_id ∈ (parse_products_from_html html.soup).map Prod.fst →
          r.last_seen = now)
  ∧ (∀ r ∈ s.store,
        r.product_id ∉ (parse_products_from_html html.soup).map Prod.fst →
          r ∈ store0) := by
  rcases runInner_ok_inv hr with ⟨html', hf', -, hs⟩
  rw [hf] at hf'
  have : html = html' := Except.ok.inj hf'
  subst this
  subst hs
  constructor
  · intro r hrm hid
    rw [runSuccessOf_store] at hrm
    exact (processRecords_store now (parse_products_from_html html.soup) store0 [] r hrm).1 hid
  · intro r hrm hid
    rw [runSuccessOf_store] at hrm
    exact (processRecords_store now (parse_products_from_html html.soup) store0 [] r hrm).2 hid

set_option maxRecDepth 8192 in
/-- C10 witness: in the A,B→A,B,C run with timestamp 7, the inserted C
row (and likewise every processed row) carries exactly that
timestamp. -/
theorem single_timestamp_c10_witness :
    (⟨"C", "Toy C", 7⟩ : StoredProduct) ∈ (runSuccessOf html0 store0ex 7).store
  ∧ (⟨"C", "Toy C", 7⟩ : StoredProduct).last_seen = 7 := by
  refine ⟨by decide, ?_⟩
  exact (single_timestamp_c10 net0 store0ex 7 (runSuccessOf html0 store0ex 7) html0 rfl rfl).1
    ⟨"C", "Toy C", 7⟩ (by decide) (by decide)

end FirstCryMonitor
